import Mathlib

/-
Verification of the absence-calculator core of `src/app.py`
(Ari – UK Citizenship Absence Checker).

Modelling of Python `datetime.date` values, in two connected layers:

* Calendar layer: a date is a record ⟨year, month, day⟩ of integers with the
  Gregorian validity predicate `isValidDate` (used by `years_ago`, whose
  behaviour depends on leap years via `date.replace` raising `ValueError`
  exactly on an invalid resulting date).

* Ordinal layer: a date is represented by its proleptic-Gregorian ordinal
  (`toOrdinal`, Python's `date.toordinal`, with 0001-01-01 ↦ 1).  Every
  operation the interval functions perform on dates — `<`, `<=`, `max`,
  `min`, `(d2 - d1).days`, `d + timedelta(days=k)` — transports along
  `toOrdinal` to the corresponding integer operation, so
  `whole_days_abroad`, `countable_interval`, `interval_overlap`,
  `count_absences_in_window` and `is_in_uk_on_day` are embedded with plain
  integers as their date arguments.

Trip rows: `count_absences_in_window` iterates over DataFrame rows whose
`start_date` / `end_date` cells hold either a parsed `date` or a non-date
value (`None`, or raw text when the loader is bypassed); a cell is modelled
as `Option Int` (`some` ordinal for a date, `none` for any non-date value),
which is exactly what the `isinstance(…, date)` guard distinguishes.
`is_in_uk_on_day` performs no such guard and its callers only pass rows with
parsed dates (`load_trips_df` drops unparseable rows), so it is modelled
over `Trip` records whose dates are present.  The `note` column is never
consulted by the core and is omitted from the records.
-/

/-- Calendar dates as year/month/day integer triples (Python `datetime.date`
values; the embedding uses the proleptic Gregorian calendar over all integer
years). -/
structure Date where
  year : Int
  month : Int
  day : Int
deriving DecidableEq, Repr

/-- Gregorian leap-year rule, as used by Python's `datetime` module. -/
def isLeapYear (y : Int) : Prop :=
  y % 4 = 0 ∧ (y % 100 ≠ 0 ∨ y % 400 = 0)

instance (y : Int) : Decidable (isLeapYear y) := by
  unfold isLeapYear; infer_instance

/-- Number of days in a month of a given year (Gregorian). -/
def daysInMonth (y m : Int) : Int :=
  if m = 2 then (if isLeapYear y then 29 else 28)
  else if m = 4 ∨ m = 6 ∨ m = 9 ∨ m = 11 then 30
  else 31

/-- Validity predicate of a ⟨year, month, day⟩ triple: exactly the condition
under which Python's `date` constructor / `date.replace` succeeds (minus the
library's representational year range, from which the embedding abstracts). -/
def isValidDate (d : Date) : Prop :=
  1 ≤ d.month ∧ d.month ≤ 12 ∧ 1 ≤ d.day ∧ d.day ≤ daysInMonth d.year d.month

instance (d : Date) : Decidable (isValidDate d) := by
  unfold isValidDate; infer_instance

/-- Days in the year strictly before month `m` (Gregorian, year `y`). -/
def daysBeforeMonth (y m : Int) : Int :=
  (if m ≤ 1 then 0 else if m = 2 then 31 else if m = 3 then 59
   else if m = 4 then 90 else if m = 5 then 120 else if m = 6 then 151
   else if m = 7 then 181 else if m = 8 then 212 else if m = 9 then 243
   else if m = 10 then 273 else if m = 11 then 304 else 334)
  + (if 3 ≤ m ∧ isLeapYear y then 1 else 0)

/-- Python `date.toordinal`: the day number of a date in the proleptic
Gregorian calendar, with 0001-01-01 ↦ 1. -/
def toOrdinal (d : Date) : Int :=
  365 * (d.year - 1) + (d.year - 1) / 4 - (d.year - 1) / 100
    + (d.year - 1) / 400 + daysBeforeMonth d.year d.month + d.day

/-- Model of `years_ago` from `src/app.py` (lines 85–93): same calendar day `years`
years earlier.  Python's `d.replace(year=d.year - years)` raises `ValueError`
exactly when the resulting triple is not a valid date, in which case the
`except` branch returns 28 February of the target year. -/
def years_ago (d : Date) (years : Int) : Date :=
  if isValidDate ⟨d.year - years, d.month, d.day⟩ then
    ⟨d.year - years, d.month, d.day⟩
  else
    ⟨d.year - years, 2, 28⟩

/-- Model of `one_year_ago` from `src/app.py` (lines 96–97). -/
def one_year_ago (d : Date) : Date := years_ago d 1

/-- Model of `whole_days_abroad` from `src/app.py` (lines 105–109); date arguments
are ordinals, `(ret - leave).days` is `ret - leave`. -/
def whole_days_abroad (leave ret : Int) : Int :=
  if ret ≤ leave then 0 else max 0 (ret - leave - 1)

/-- Model of `countable_interval` from `src/app.py` (lines 112–120): the inclusive
range `leave + 1 … ret - 1` of days that count as abroad, or `none` when
empty. -/
def countable_interval (leave ret : Int) : Option (Int × Int) :=
  let s := leave + 1
  let e := ret - 1
  if e < s then none else some (s, e)

/-- Model of `interval_overlap` from `src/app.py` (lines 123–128): intersection of two
inclusive closed ranges, or `none` when they do not intersect. -/
def interval_overlap (a_start a_end b_start b_end : Int) : Option (Int × Int) :=
  let s := max a_start b_start
  let e := min a_end b_end
  if e < s then none else some (s, e)

/-- A raw trip row as `count_absences_in_window` sees it: each date cell is
`some` ordinal when it holds a parsed `date`, `none` for any non-date value. -/
structure Row where
  start_date : Option Int
  end_date : Option Int
deriving DecidableEq, Repr

/-- A trip row whose dates are known to be parsed calendar dates (the shape
`load_trips_df` guarantees after dropping unparseable rows). -/
structure Trip where
  start_date : Int
  end_date : Int
deriving DecidableEq, Repr

/-- View of a validated trip as a raw row. -/
def Trip.toRow (t : Trip) : Row := ⟨some t.start_date, some t.end_date⟩

/-- Loop body of `count_absences_in_window` (`src/app.py` lines 136–152):
skip the row unless both cells hold dates (the `isinstance` guard), skip when
the countable interval is empty or misses the window, otherwise add the
inclusive length of the overlap to the running total. -/
def count_step (window_start window_end total : Int) (r : Row) : Int :=
  match r.start_date, r.end_date with
  | some leave, some ret =>
    match countable_interval leave ret with
    | none => total
    | some (cs, ce) =>
      match interval_overlap cs ce window_start window_end with
      | none => total
      | some (os, oe) => total + ((oe - os) + 1)
  | _, _ => total

/-- Model of `count_absences_in_window` from `src/app.py` (lines 131–153): fold the
loop body over the rows starting from a zero total. -/
def count_absences_in_window (trips : List Row) (window_start window_end : Int) : Int :=
  trips.foldl (count_step window_start window_end) 0

/-- Model of `is_in_uk_on_day` from `src/app.py` (lines 156–166): return `false` as
soon as some trip has `leave < d < ret`, else `true`. -/
def is_in_uk_on_day : List Trip → Int → Bool
  | [], _ => true
  | t :: rest, d =>
    if t.start_date < d ∧ d < t.end_date then false else is_in_uk_on_day rest d

/-- Model of `abs_12m` from `src/app.py` (lines 285–289): total absence in the window
from one year before the application date to the application date. -/
def abs_12m (trips : List Row) (app_date : Date) : Int :=
  count_absences_in_window trips (toOrdinal (one_year_ago app_date)) (toOrdinal app_date)

/-- Model of `abs_5y` from `src/app.py` (lines 285–290): total absence in the window
from five years before the application date to the application date. -/
def abs_5y (trips : List Row) (app_date : Date) : Int :=
  count_absences_in_window trips (toOrdinal (years_ago app_date 5)) (toOrdinal app_date)

/-- Model of `OK_12M` from `src/app.py` (line 296): 12-month eligibility signal. -/
def OK_12M (trips : List Row) (app_date : Date) : Bool :=
  decide (abs_12m trips app_date ≤ 90)

/-- Model of `OK_5Y` from `src/app.py` (line 297): 5-year eligibility signal. -/
def OK_5Y (trips : List Row) (app_date : Date) : Bool :=
  decide (abs_5y trips app_date ≤ 450)

/-- Closed form of `whole_days_abroad`: the `max` is redundant once the guard
has decided `leave < ret`. -/
lemma whole_days_eq (l r : Int) :
    whole_days_abroad l r = if r ≤ l + 1 then 0 else r - l - 1 := by
  unfold whole_days_abroad
  rcases le_or_lt r l with h | h
  · rw [if_pos h, if_pos (by omega)]
  · rw [if_neg (by omega)]
    rcases le_or_lt r (l + 1) with h2 | h2
    · rw [if_pos h2, max_eq_left (by omega)]
    · rw [if_neg (by omega), max_eq_right (by omega)]

/-- Claim C2: `whole_days_abroad` returns 0 when the return ordinal is at
most the departure ordinal, otherwise the day difference minus one; for an
offset `n` it returns `n - 1` when `n ≥ 1` and 0 when `n ≤ 1`, and the
result is never negative. -/
theorem whole_days_abroad_spec (leave ret : Int) :
    (ret ≤ leave → whole_days_abroad leave ret = 0)
    ∧ (leave < ret → whole_days_abroad leave ret = ret - leave - 1)
    ∧ (∀ n : Int, 1 ≤ n → whole_days_abroad leave (leave + n) = n - 1)
    ∧ (∀ n : Int, n ≤ 1 → whole_days_abroad leave (leave + n) = 0)
    ∧ 0 ≤ whole_days_abroad leave ret := by
  refine ⟨fun h => ?_, fun h => ?_, fun n hn => ?_, fun n hn => ?_, ?_⟩ <;>
    rw [whole_days_eq] <;> split_ifs <;> omega

/-- Witness for C2 at departure ordinal 10, return ordinal 15. -/
theorem whole_days_abroad_spec_witness :
    whole_days_abroad 10 15 = 4 ∧ whole_days_abroad 10 (10 + 3) = 2 := by
  have h := whole_days_abroad_spec 10 15
  exact ⟨h.2.1 (by omega), (h.2.2.1 3 (by omega)).trans (by omega)⟩

/-- Claim C6: `countable_interval` returns the pair
`(departure + 1, return - 1)` whenever that inclusive range is non-empty,
and returns `none` exactly when the trip spans at most one day; on the trip
2023-01-01 → 2023-01-10 it returns (2023-01-02, 2023-01-09). -/
theorem countable_interval_spec (leave ret : Int) :
    (¬ ret - 1 < leave + 1 → countable_interval leave ret = some (leave + 1, ret - 1))
    ∧ (countable_interval leave ret = none ↔ ret - leave ≤ 1)
    ∧ countable_interval (toOrdinal ⟨2023, 1, 1⟩) (toOrdinal ⟨2023, 1, 10⟩)
        = some (toOrdinal ⟨2023, 1, 2⟩, toOrdinal ⟨2023, 1, 9⟩) := by
  refine ⟨fun h => ?_, ?_, by decide⟩
  · simp only [countable_interval]
    rw [if_neg (by omega)]
  · simp only [countable_interval]
    split_ifs with h
    · simp; omega
    · simp; omega

/-- Witness for C6 on the trip with departure ordinal 100 and return
ordinal 110. -/
theorem countable_interval_spec_witness :
    countable_interval 100 110 = some (101, 109) :=
  (countable_interval_spec 100 110).1 (by omega)

/-- Claim C7: `countable_interval` is `none` exactly when
`whole_days_abroad` is 0 on the same pair of dates. -/
theorem countable_none_iff_whole_days_zero (leave ret : Int) :
    countable_interval leave ret = none ↔ whole_days_abroad leave ret = 0 := by
  rw [whole_days_eq]
  simp only [countable_interval]
  split_ifs with h1 h2
  · simp
  · omega
  · omega
  · simp; omega

/-- The loop body only ever adds to the running total: its effect factors
through its contribution at total 0. -/
lemma count_step_shift (ws we total : Int) (r : Row) :
    count_step ws we total r = total + count_step ws we 0 r := by
  rcases r with ⟨sd, ed⟩
  cases sd with
  | none => simp [count_step]
  | some leave =>
    cases ed with
    | none => simp [count_step]
    | some ret =>
      cases h1 : countable_interval leave ret with
      | none => simp [count_step, h1]
      | some p =>
        obtain ⟨cs, ce⟩ := p
        cases h2 : interval_overlap cs ce ws we with
        | none => simp [count_step, h1, h2]
        | some q =>
          obtain ⟨os, oe⟩ := q
          simp [count_step, h1, h2]

/-- Folding the loop body from any initial total adds the per-row
contributions. -/
lemma foldl_count_step (ws we : Int) :
    ∀ (trips : List Row) (init : Int),
      trips.foldl (count_step ws we) init
        = init + (trips.map (fun r => count_step ws we 0 r)).sum
  | [], init => by simp
  | r :: rest, init => by
    rw [List.foldl_cons, count_step_shift, foldl_count_step ws we rest]
    simp [add_assoc]

/-- Unfolding: `count_absences_in_window` is the sum of independent per-row
contributions. -/
lemma count_absences_eq_sum (trips : List Row) (ws we : Int) :
    count_absences_in_window trips ws we
      = (trips.map (fun r => count_step ws we 0 r)).sum := by
  unfold count_absences_in_window
  rw [foldl_count_step]
  simp

/-- Per-trip contribution, stated from the spec's words: intersect the
trip's countable interval `[departure + 1, return - 1]` with the inclusive
window and take `end - start + 1`, or 0 when the countable interval is empty
or misses the window. -/
def specTripDays (t : Trip) (window_start window_end : Int) : Int :=
  let s := max (t.start_date + 1) window_start
  let e := min (t.end_date - 1) window_end
  if e < s then 0 else e - s + 1

/-- The code path of one loop iteration computes exactly the spec-side
per-trip contribution. -/
lemma count_step_toRow (t : Trip) (ws we : Int) :
    count_step ws we 0 t.toRow = specTripDays t ws we := by
  rcases t with ⟨leave, ret⟩
  simp only [count_step, Trip.toRow, countable_interval, interval_overlap, specTripDays]
  have hmax : leave + 1 ≤ max (leave + 1) ws := le_max_left _ _
  have hmin : min (ret - 1) we ≤ ret - 1 := min_le_left _ _
  by_cases h1 : ret - 1 < leave + 1
  · rw [if_pos h1]
    simp only
    rw [if_pos (by omega)]
  · rw [if_neg h1]
    simp only
    by_cases h2 : min (ret - 1) we < max (leave + 1) ws
    · rw [if_pos h2, if_pos h2]
    · rw [if_neg h2, if_neg h2]
      simp [add_comm]

/-- Claim C1: `count_absences_in_window` sums, independently over the trips,
the inclusive length of the intersection of each trip's countable interval
with the window, with empty or non-overlapping intersections contributing 0
and no deduplication; on the window [2023-01-01, 2023-01-05] a trip with
countable interval (2023-01-03, 2023-01-09) contributes exactly 3 days. -/
theorem count_absences_matches_spec :
    (∀ (trips : List Trip) (ws we : Int),
      count_absences_in_window (trips.map Trip.toRow) ws we
        = (trips.map (fun t => specTripDays t ws we)).sum)
    ∧ count_absences_in_window [Trip.toRow ⟨toOrdinal ⟨2023, 1, 2⟩, toOrdinal ⟨2023, 1, 10⟩⟩]
        (toOrdinal ⟨2023, 1, 1⟩) (toOrdinal ⟨2023, 1, 5⟩) = 3 := by
  constructor
  · intro trips ws we
    rw [count_absences_eq_sum, List.map_map]
    simp [Function.comp_def, count_step_toRow]
  · decide

/-- Claim C8: permuting the trip rows leaves the absence total unchanged. -/
theorem count_absences_perm_invariant (ws we : Int) (l1 l2 : List Row)
    (h : l1.Perm l2) :
    count_absences_in_window l1 ws we = count_absences_in_window l2 ws we := by
  rw [count_absences_eq_sum, count_absences_eq_sum]
  exact List.Perm.sum_eq (h.map _)

/-- Witness for C8: swapping two concrete rows preserves the total. -/
theorem count_absences_perm_invariant_witness :
    count_absences_in_window [⟨some 0, some 10⟩, ⟨some 2, some 5⟩] 1 8
      = count_absences_in_window [⟨some 2, some 5⟩, ⟨some 0, some 10⟩] 1 8 :=
  count_absences_perm_invariant 1 8 _ _ (List.Perm.swap _ _ _)

/-- A row with a non-date cell contributes nothing to the fold. -/
lemma count_step_skips_non_date (ws we : Int) (r : Row)
    (h : r.start_date = none ∨ r.end_date = none) :
    count_step ws we 0 r = 0 := by
  rcases r with ⟨sd, ed⟩
  rcases h with h | h
  · simp only at h
    subst h
    simp [count_step]
  · simp only at h
    subst h
    cases sd <;> simp [count_step]

/-- Claim C10: `count_absences_in_window` silently skips any row with a
non-date `start_date` or `end_date` cell — deleting such a row from anywhere
in the list never changes the total. -/
theorem count_absences_skips_non_date_rows (l1 l2 : List Row) (r : Row)
    (ws we : Int) (h : r.start_date = none ∨ r.end_date = none) :
    count_absences_in_window (l1 ++ r :: l2) ws we
      = count_absences_in_window (l1 ++ l2) ws we := by
  rw [count_absences_eq_sum, count_absences_eq_sum]
  simp [count_step_skips_non_date ws we r h]

/-- Witness for C10: a row whose start cell is not a date is skipped. -/
theorem count_absences_skips_non_date_rows_witness :
    count_absences_in_window ([] ++ Row.mk none (some 5) :: [⟨some 0, some 10⟩]) 1 8
      = count_absences_in_window ([] ++ [⟨some 0, some 10⟩]) 1 8 :=
  count_absences_skips_non_date_rows [] [⟨some 0, some 10⟩] ⟨none, some 5⟩ 1 8 (Or.inl rfl)

/-- Claim C3: `is_in_uk_on_day` returns `false` exactly when some trip has
the day strictly between its departure and return, and returns `true` on the
empty trip list. -/
theorem is_in_uk_on_day_spec (trips : List Trip) (d : Int) :
    (is_in_uk_on_day trips d = false
      ↔ ∃ t ∈ trips, t.start_date < d ∧ d < t.end_date)
    ∧ is_in_uk_on_day [] d = true := by
  refine ⟨?_, rfl⟩
  induction trips with
  | nil => simp [is_in_uk_on_day]
  | cons t rest ih =>
    by_cases h : t.start_date < d ∧ d < t.end_date
    · simp [is_in_uk_on_day, h]
    · simp [is_in_uk_on_day, h, ih]

/-- If a date is valid and is not a 29 February mapped to a non-leap year,
replacing its year keeps it valid (Python `date.replace(year=…)` succeeds). -/
lemma replace_year_valid (y m day n : Int)
    (hv : isValidDate ⟨y, m, day⟩)
    (h : ¬(m = 2 ∧ day = 29 ∧ ¬isLeapYear (y - n))) :
    isValidDate ⟨y - n, m, day⟩ := by
  unfold isValidDate at hv ⊢
  simp only at hv ⊢
  obtain ⟨h1, h2, h3, h4⟩ := hv
  refine ⟨h1, h2, h3, ?_⟩
  unfold daysInMonth at h4 ⊢
  by_cases hm : m = 2
  · subst hm
    rw [if_pos rfl] at h4 ⊢
    by_cases hl : isLeapYear (y - n)
    · rw [if_pos hl]
      split_ifs at h4 <;> omega
    · rw [if_neg hl]
      have hd : ¬day = 29 := fun hd => h ⟨rfl, hd, hl⟩
      split_ifs at h4 <;> omega
  · rw [if_neg hm] at h4 ⊢
    exact h4

/-- A 29 February is not a valid date of a non-leap year (Python
`date.replace` raises `ValueError` there). -/
lemma feb29_invalid (y : Int) (hl : ¬isLeapYear y) :
    ¬isValidDate ⟨y, 2, 29⟩ := by
  intro hv
  simp [isValidDate, daysInMonth, hl] at hv

/-- Claim C4: for a valid date and `n ≥ 0`, `years_ago` returns the same
month and day in year `year - n`, except that a 29 February whose target
year is not a leap year falls back to 28 February; in particular
`years_ago 2024-02-29 1 = 2023-02-28`. -/
theorem years_ago_spec :
    (∀ (d : Date) (n : Int), isValidDate d → 0 ≤ n →
      years_ago d n
        = if d.month = 2 ∧ d.day = 29 ∧ ¬isLeapYear (d.year - n)
          then ⟨d.year - n, 2, 28⟩
          else ⟨d.year - n, d.month, d.day⟩)
    ∧ years_ago ⟨2024, 2, 29⟩ 1 = ⟨2023, 2, 28⟩ := by
  constructor
  · intro d n hv _
    rcases d with ⟨y, m, day⟩
    simp only
    by_cases hFeb : m = 2 ∧ day = 29 ∧ ¬isLeapYear (y - n)
    · rw [if_pos hFeb]
      obtain ⟨hm, hd, hl⟩ := hFeb
      subst hm
      subst hd
      unfold years_ago
      simp only
      rw [if_neg (feb29_invalid (y - n) hl)]
    · rw [if_neg hFeb]
      unfold years_ago
      simp only
      rw [if_pos (replace_year_valid y m day n hv hFeb)]
  · decide

/-- Witness for C4 on the leap day 2024-02-29 with `n = 1`. -/
theorem years_ago_spec_witness :
    isValidDate ⟨2024, 2, 29⟩ ∧ years_ago ⟨2024, 2, 29⟩ 1 = ⟨2023, 2, 28⟩ := by
  refine ⟨by decide, ?_⟩
  have h := years_ago_spec.1 ⟨2024, 2, 29⟩ 1 (by decide) (by decide)
  rw [h, if_pos (by decide)]
  decide

/-- Claim C5: `OK_12M` holds exactly when the absence total over the window
from `years_ago A 1` to the application date `A` is at most 90, `OK_5Y`
exactly when the total over the window from `years_ago A 5` to `A` is at
most 450; a 12-month total of 91 makes `OK_12M` false. -/
theorem eligibility_signals_spec (trips : List Row) (A : Date) :
    (OK_12M trips A = true
      ↔ count_absences_in_window trips (toOrdinal (years_ago A 1)) (toOrdinal A) ≤ 90)
    ∧ (OK_5Y trips A = true
      ↔ count_absences_in_window trips (toOrdinal (years_ago A 5)) (toOrdinal A) ≤ 450)
    ∧ (abs_12m trips A = 91 → OK_12M trips A = false) := by
  refine ⟨?_, ?_, fun h => ?_⟩
  · simp [OK_12M, abs_12m, one_year_ago]
  · simp [OK_5Y, abs_5y]
  · simp [OK_12M, h]

/-- Witness for C5: application date 2024-06-15 and a single trip
2023-07-01 → 2023-10-01, whose 91 countable days all fall inside the
12-month window, make `OK_12M` false. -/
theorem eligibility_signals_spec_witness :
    abs_12m [⟨some (toOrdinal ⟨2023, 7, 1⟩), some (toOrdinal ⟨2023, 10, 1⟩)⟩]
        ⟨2024, 6, 15⟩ = 91
    ∧ OK_12M [⟨some (toOrdinal ⟨2023, 7, 1⟩), some (toOrdinal ⟨2023, 10, 1⟩)⟩]
        ⟨2024, 6, 15⟩ = false :=
  ⟨by decide, (eligibility_signals_spec _ _).2.2 (by decide)⟩

/-- Anatomy of a `some` result of `countable_interval`. -/
lemma countable_interval_some (leave ret s e : Int)
    (h : countable_interval leave ret = some (s, e)) :
    s = leave + 1 ∧ e = ret - 1 ∧ s ≤ e := by
  simp only [countable_interval] at h
  split_ifs at h with hc
  simp only [Option.some.injEq, Prod.mk.injEq] at h
  omega

/-- Anatomy of a `some` result of `interval_overlap`. -/
lemma interval_overlap_some (a b c d s e : Int)
    (h : interval_overlap a b c d = some (s, e)) :
    s = max a c ∧ e = min b d ∧ s ≤ e := by
  simp only [interval_overlap] at h
  split_ifs at h with hc
  simp only [Option.some.injEq, Prod.mk.injEq] at h
  obtain ⟨h1, h2⟩ := h
  refine ⟨h1.symm, h2.symm, ?_⟩
  omega

/-- Each loop iteration adds a non-negative amount. -/
lemma count_step_nonneg (ws we : Int) (r : Row) : 0 ≤ count_step ws we 0 r := by
  rcases r with ⟨sd, ed⟩
  cases sd with
  | none => simp [count_step]
  | some leave =>
    cases ed with
    | none => simp [count_step]
    | some ret =>
      cases h1 : countable_interval leave ret with
      | none => simp [count_step, h1]
      | some p =>
        obtain ⟨cs, ce⟩ := p
        cases h2 : interval_overlap cs ce ws we with
        | none => simp [count_step, h1, h2]
        | some q =>
          obtain ⟨os, oe⟩ := q
          have := interval_overlap_some cs ce ws we os oe h2
          simp [count_step, h1, h2]
          omega

/-- Claim C9: every core operation is a total function of its (parsed-date)
inputs and returns a well-formed result: `whole_days_abroad` is
non-negative; a `some` result of `countable_interval` is the ordered range
`leave + 1 … ret - 1`; a `some` result of `interval_overlap` is an ordered
range inside both inputs; `count_absences_in_window` is non-negative;
`is_in_uk_on_day` returns one of the two booleans; `years_ago` returns a
valid calendar date. -/
theorem core_total_and_wellformed :
    (∀ leave ret : Int, 0 ≤ whole_days_abroad leave ret)
    ∧ (∀ leave ret s e : Int, countable_interval leave ret = some (s, e) →
        s = leave + 1 ∧ e = ret - 1 ∧ s ≤ e)
    ∧ (∀ a b c d s e : Int, interval_overlap a b c d = some (s, e) →
        a ≤ s ∧ c ≤ s ∧ s ≤ e ∧ e ≤ b ∧ e ≤ d)
    ∧ (∀ (trips : List Row) (ws we : Int), 0 ≤ count_absences_in_window trips ws we)
    ∧ (∀ (trips : List Trip) (d : Int),
        is_in_uk_on_day trips d = true ∨ is_in_uk_on_day trips d = false)
    ∧ (∀ (d : Date) (n : Int), isValidDate (years_ago d n)) := by
  refine ⟨?_, countable_interval_some, ?_, ?_, ?_, ?_⟩
  · intro leave ret
    rw [whole_days_eq]
    split_ifs <;> omega
  · intro a b c d s e h
    obtain ⟨h1, h2, h3⟩ := interval_overlap_some a b c d s e h
    have := le_max_left a c
    have := le_max_right a c
    have := min_le_left b d
    have := min_le_right b d
    omega
  · intro trips ws we
    rw [count_absences_eq_sum]
    apply List.sum_nonneg
    intro x hx
    obtain ⟨r, _, hr⟩ := List.mem_map.1 hx
    rw [← hr]
    exact count_step_nonneg ws we r
  · intro trips d
    cases is_in_uk_on_day trips d
    · exact Or.inr rfl
    · exact Or.inl rfl
  · intro d n
    unfold years_ago
    split_ifs with h
    · exact h
    · by_cases hl : isLeapYear (d.year - n)
      · simp [isValidDate, daysInMonth, hl]
      · simp [isValidDate, daysInMonth, hl]

/-- Witness for C9 at concrete inputs for each conjunct with a hypothesis. -/
theorem core_total_and_wellformed_witness :
    ((101 : Int) = 100 + 1 ∧ (109 : Int) = 110 - 1 ∧ (101 : Int) ≤ 109)
    ∧ ((1 : Int) ≤ 3 ∧ (3 : Int) ≤ 3 ∧ (3 : Int) ≤ 7 ∧ (7 : Int) ≤ 9 ∧ (7 : Int) ≤ 7)
    ∧ 0 ≤ count_absences_in_window [⟨some 0, some 10⟩] 2 5
    ∧ isValidDate (years_ago ⟨2024, 2, 29⟩ 4) :=
  ⟨core_total_and_wellformed.2.1 100 110 101 109 (by decide),
   core_total_and_wellformed.2.2.1 1 9 3 7 3 7 (by decide),
   core_total_and_wellformed.2.2.2.1 [⟨some 0, some 10⟩] 2 5,
   core_total_and_wellformed.2.2.2.2.2 ⟨2024, 2, 29⟩ 4⟩
